import Mathlib

/-!
# Verification of the 3D FPS gameplay core

Shallow embedding, in Lean 4, of the gameplay-simulation core of the
browser FPS repository: the loot economy (`Enemy.die` loot roll,
`Player.collectLoot`), the player combat and damage model
(`Player.shoot`, `Player.takeDamage`), player jumping and ground contact
(`Player.onKeyDown` Space case / `Player.update`), the enemy damage and
AI state machine (`Enemy.takeDamage`, `Enemy.update`), and the
wave/spawn director (`EnemyManager`).

Geometry that the code delegates to the rendering library (ray casts,
mesh positions) is abstracted into explicit inputs of the embedded
functions; all numeric fields use exact rationals.  JavaScript numbers
are IEEE doubles, but every computation proved about here stays within
ranges where double arithmetic on the involved constants is exact or
where the property is order-theoretic, so `ℚ` is a faithful model.
-/

namespace FPS

/-! ## Loot economy: the drop roll in `Enemy.die` (src/js/Enemy.js)

```
const rand = Math.random();
if (rand < 0.1)      spawnLoot(pos, 'potion');
else if (rand < 0.1) spawnLoot(pos, 'cowboyhat');
else if (rand < 0.8) spawnLoot(pos, 'coin');
```
-/

/-- Loot item kinds, as the string tags used by `LootManager.spawnLoot`. -/
inductive LootType where
  | potion
  | cowboyhat
  | coin
  deriving DecidableEq, Repr

/-- The loot roll performed in `Enemy.die`: `rand` is the value of the
single `Math.random()` draw (uniform in `[0,1)`); the result is the loot
type spawned at the death position, `none` when nothing is spawned. -/
def lootRoll (rand : ℚ) : Option LootType :=
  if rand < 1/10 then some LootType.potion
  else if rand < 1/10 then some LootType.cowboyhat
  else if rand < 8/10 then some LootType.coin
  else none

/-! ## Player state (src/unnamed/part_006, class `Player`)

Fields of the `Player` relevant to damage, ammo, loot and jumping.
`health`, `armor` are doubles in the source; `money` and `ammo` are
integral. -/

structure PState where
  health : ℚ
  armor : ℚ
  money : ℚ
  ammo : ℕ
  maxAmmo : ℕ
  shootCooldown : ℚ
  shootRate : ℚ
  isReloading : Bool
  deriving DecidableEq, Repr

/-- The initial player stats set in the `Player` constructor. -/
def initialPState : PState :=
  { health := 100, armor := 0, money := 0, ammo := 30, maxAmmo := 30
    shootCooldown := 0, shootRate := 3/20, isReloading := false }

/-- `Player.takeDamage(amount)`:
`this.health = Math.max(0, this.health - amount)`; no other stat field
is touched (the HUD update and damage sound are presentation only). -/
def PState.takeDamage (amount : ℚ) (s : PState) : PState :=
  { s with health := max 0 (s.health - amount) }

/-- `Player.collectLoot(type)`: coin adds 10 money; `cowboyhat` adds
`100 / (100 + armor)` armor; potion heals 25 capped at 100. -/
def PState.collectLoot (t : LootType) (s : PState) : PState :=
  match t with
  | LootType.coin => { s with money := s.money + 10 }
  | LootType.cowboyhat =>
      { s with armor := s.armor + 100 / (100 + s.armor) }
  | LootType.potion => { s with health := min 100 (s.health + 25) }

/-- The player state after `n` consecutive hat pickups starting from
the initial state (`armor = 0`). -/
def hatIter (n : ℕ) : PState :=
  (PState.collectLoot LootType.cowboyhat)^[n] initialPState

/-- The player's armor after `n` consecutive hat pickups. -/
def armorAfter (n : ℕ) : ℚ := (hatIter n).armor

/-- The armor increment granted by the `(n+1)`-st hat pickup. -/
def armorGain (n : ℕ) : ℚ := armorAfter (n + 1) - armorAfter n

/-! ## Jumping and ground contact (src/unnamed/part_006)

The locomotion fields of the `Player` touched by jumping: `jumpCount`,
`velocity.y` and the camera height `position.y`.  Constants from the
constructor: `maxJumps = 2`, `jumpForce = 8`, `gravity = 25`,
`playerHeight = 1.7`. -/

structure JState where
  jumpCount : ℕ
  velY : ℚ
  posY : ℚ
  deriving DecidableEq, Repr

/-- The Space case of `Player.onKeyDown`: accepted only while
`jumpCount < maxJumps`; the impulse is `jumpForce` for the first jump
and `jumpForce * 0.8` for the second; `jumpCount` is incremented. -/
def JState.pressSpace (s : JState) : JState :=
  if s.jumpCount < 2 then
    { s with velY := 8 * (if s.jumpCount = 0 then 1 else 8/10),
             jumpCount := s.jumpCount + 1 }
  else s

/-- Whether the locomotion update with time step `delta` and standing
surface `ground` (the result of `getGroundHeight`) detects ground
contact: after gravity integration the feet are at or below the
surface. -/
def JState.groundContact (delta ground : ℚ) (s : JState) : Bool :=
  let v := s.velY - 25 * delta
  decide (s.posY + v * delta - 17/10 ≤ ground)

/-- The vertical part of `Player.update`: integrate gravity, move, and
on ground contact zero the vertical velocity, snap the feet to the
surface and reset the jump count. -/
def JState.updateStep (delta ground : ℚ) (s : JState) : JState :=
  let v := s.velY - 25 * delta
  let y := s.posY + v * delta
  if s.groundContact delta ground then
    { jumpCount := 0, velY := 0, posY := ground + 17/10 }
  else
    { s with velY := v, posY := y }

/-- The operations that can touch the jump fields between renders:
a Space key press, or one locomotion update. -/
inductive JOp where
  | space
  | update (delta ground : ℚ)
  deriving DecidableEq, Repr

def JOp.apply (op : JOp) (s : JState) : JState :=
  match op with
  | JOp.space => s.pressSpace
  | JOp.update delta ground => s.updateStep delta ground

/-- Runs a sequence of jump-related operations. -/
def JOp.run (l : List JOp) (s : JState) : JState :=
  match l with
  | [] => s
  | op :: l => JOp.run l (op.apply s)

/-- Number of accepted jump inputs along a run. -/
def JOp.acceptedJumps (l : List JOp) (s : JState) : ℕ :=
  match l with
  | [] => 0
  | op :: l =>
      (if op = JOp.space ∧ s.jumpCount < 2 then 1 else 0) +
        JOp.acceptedJumps l (op.apply s)

/-- A run in which no locomotion update detects ground contact. -/
def JOp.NoContactRun (l : List JOp) (s : JState) : Prop :=
  match l with
  | [] => True
  | op :: l =>
      (∀ delta ground, op = JOp.update delta ground →
        s.groundContact delta ground = false) ∧
      JOp.NoContactRun l (op.apply s)

/-! ## Shooting (src/unnamed/part_006, `Player.shoot`)

The observable effects (audio cues, the ray cast, damage dealt to the
enemy that the ray resolves to) are recorded as an event list; the ray
cast result is an explicit input (`hit`): `none` when the crosshair ray
hits nothing, `some true` when the nearest hit resolves to an enemy,
`some false` for an environment hit. -/

inductive ShootEv where
  | emptyGunCue
  | gunshotCue
  | rayCast
  | enemyDamaged (amount : ℚ)
  | enemyHitCue
  | environmentHitCue
  deriving DecidableEq, Repr

/-- `Player.shoot()`: returns early (no state change, no events) while
the cooldown is running or a reload is in progress; with no ammo it
emits only the empty-gun cue; otherwise it starts the cooldown,
decrements ammo, plays the gunshot, casts the crosshair ray and applies
25 damage to a resolved enemy hit. -/
def PState.shoot (hit : Option Bool) (s : PState) : PState × List ShootEv :=
  if 0 < s.shootCooldown then (s, [])
  else if s.isReloading then (s, [])
  else if s.ammo = 0 then (s, [ShootEv.emptyGunCue])
  else
    let s2 : PState := { s with shootCooldown := s.shootRate, ammo := s.ammo - 1 }
    let hitEvs : List ShootEv :=
      match hit with
      | some true => [ShootEv.enemyDamaged 25, ShootEv.enemyHitCue]
      | some false => [ShootEv.environmentHitCue]
      | none => []
    (s2, [ShootEv.gunshotCue, ShootEv.rayCast] ++ hitEvs)

/-! ## Enemy states (src/js/Enemy.js, `Enemy.STATE`) -/

inductive EState where
  | idle
  | patrol
  | chase
  | attack
  | dead
  deriving DecidableEq, Repr

/-- A world position (`THREE.Vector3`). -/
structure Pos where
  x : ℚ
  y : ℚ
  z : ℚ
  deriving DecidableEq, Repr

/-- Squared Euclidean distance.  The source compares
`a.distanceTo(b) < 3`, which for exact arithmetic is equivalent to
`distSq a b < 9`; the embedding uses the squared form to stay in `ℚ`. -/
def distSq (a b : Pos) : ℚ :=
  (a.x - b.x) ^ 2 + (a.y - b.y) ^ 2 + (a.z - b.z) ^ 2

/-! ## The enemy (src/js/Enemy.js)

The simulation-relevant fields of an `Enemy`, with the geometric
queries that `update` delegates to the scene (line of sight, distances)
abstracted into an explicit environment `EEnv`.  Movement
(`moveToward`) changes only the mesh position, which none of the
verified claims read, so position is not carried. -/

structure Enemy where
  state : EState
  health : ℚ
  maxHealth : ℚ
  damage : ℚ
  attackCooldown : ℚ
  attackRate : ℚ
  stateTimer : ℚ
  patrolWaitTime : ℚ
  attackRange : ℚ
  loseInterestRange : ℚ
  hasTarget : Bool
  deriving DecidableEq, Repr

/-- The per-tick inputs `Enemy.update` reads from the world:
`canSee` is `canSeePlayer()` (detection range plus line-of-sight ray),
`distPlayer` is `distanceToPlayer()`, `distTarget` the distance to the
current patrol target. -/
structure EEnv where
  canSee : Bool
  distPlayer : ℚ
  distTarget : ℚ
  deriving DecidableEq, Repr

/-- `Enemy.takeDamage(amount)`: early return while Dead; otherwise
subtract (the health-bar clamp touches only the display), and enter
`die()` — whose simulation effect on the enemy itself is
`state = DEAD` — when health drops to 0 or below. -/
def Enemy.takeDamage (amount : ℚ) (e : Enemy) : Enemy :=
  if e.state = EState.dead then e
  else
    let e2 := { e with health := e.health - amount }
    if e2.health ≤ 0 then { e2 with state := EState.dead } else e2

/-- `Enemy.updateIdle`: count the wait timer down; on expiry enter
Patrol with a fresh patrol target. -/
def Enemy.updateIdle (delta : ℚ) (e : Enemy) : Enemy :=
  let t := e.stateTimer - delta
  if t ≤ 0 then
    { e with stateTimer := t, state := EState.patrol, hasTarget := true }
  else { e with stateTimer := t }

/-- `Enemy.updatePatrol`: sample a target if none; on arrival
(distance < 0.5) go Idle and reset the wait timer; otherwise move
(position only). -/
def Enemy.updatePatrol (env : EEnv) (e : Enemy) : Enemy :=
  if e.hasTarget = false then { e with hasTarget := true }
  else if env.distTarget < 1/2 then
    { e with state := EState.idle, stateTimer := e.patrolWaitTime }
  else e

/-- `Enemy.updateChase`: switch to Attack inside attack range,
otherwise move toward the player (position only). -/
def Enemy.updateChase (env : EEnv) (e : Enemy) : Enemy :=
  if env.distPlayer ≤ e.attackRange then { e with state := EState.attack }
  else e

/-- `Enemy.updateAttack`: re-chase beyond 1.5× attack range; otherwise
strike (`attack()` deals `damage` to the player, returned as the second
component) when the cooldown has run out, resetting it to
`attackRate`. -/
def Enemy.updateAttack (env : EEnv) (e : Enemy) : Enemy × Option ℚ :=
  if e.attackRange * (3/2) < env.distPlayer then
    ({ e with state := EState.chase }, none)
  else if e.attackCooldown ≤ 0 then
    ({ e with attackCooldown := e.attackRate }, some e.damage)
  else (e, none)

/-- The `switch (this.state)` dispatch of `Enemy.update`. -/
def Enemy.stateDispatch (delta : ℚ) (env : EEnv) (e : Enemy) :
    Enemy × Option ℚ :=
  match e.state with
  | EState.idle => (e.updateIdle delta, none)
  | EState.patrol => (e.updatePatrol env, none)
  | EState.chase => (e.updateChase env, none)
  | EState.attack => e.updateAttack env
  | EState.dead => (e, none)

/-- The perception block at the end of `Enemy.update`: unless Dead or
already attacking, seeing the player aggros into Attack (within attack
range) or Chase; a chasing enemy that lost sight beyond the
lose-interest range returns to Patrol with a fresh target. -/
def Enemy.perception (env : EEnv) (e : Enemy) : Enemy :=
  if e.state ≠ EState.dead ∧ e.state ≠ EState.attack then
    if env.canSee then
      if env.distPlayer ≤ e.attackRange then { e with state := EState.attack }
      else { e with state := EState.chase }
    else if e.state = EState.chase ∧ e.loseInterestRange < env.distPlayer then
      { e with state := EState.patrol, hasTarget := true }
    else e
  else e

/-- `Enemy.update(delta)`: early return while Dead; tick the attack
cooldown down while positive; run the state dispatch, then the
perception block.  The second component is the damage dealt to the
player this tick, if any. -/
def Enemy.update (delta : ℚ) (env : EEnv) (e : Enemy) : Enemy × Option ℚ :=
  if e.state = EState.dead then (e, none)
  else
    let e1 :=
      if 0 < e.attackCooldown then
        { e with attackCooldown := e.attackCooldown - delta }
      else e
    let p := e1.stateDispatch delta env
    (p.1.perception env, p.2)

/-! ## Spawn validation and the spawn-position search
(src/js/EnemyManager.js) -/

/-- A collidable volume as seen by the spawn validator: its
axis-aligned bounding box in x/z and whether its `name` is `ground`
(the validator skips the ground). -/
structure Obst where
  isGround : Bool
  minX : ℚ
  maxX : ℚ
  minZ : ℚ
  maxZ : ℚ
  deriving DecidableEq, Repr

/-- Whether a point lies inside an obstacle box expanded by the spawn
safety margin (`spawnRadius = 1.0`) in x and z, as checked in
`EnemyManager.isValidSpawnPosition`. -/
def inExpandedBox (o : Obst) (p : Pos) : Bool :=
  decide (o.minX - 1 ≤ p.x ∧ p.x ≤ o.maxX + 1 ∧
          o.minZ - 1 ≤ p.z ∧ p.z ≤ o.maxZ + 1)

/-- `EnemyManager.isValidSpawnPosition(position)`: false when some
non-Dead enemy is within distance 3 of the candidate, or when the
candidate lies inside some non-ground obstacle's expanded box;
otherwise true. -/
def isValidSpawnPosition (enemies : List (EState × Pos))
    (obstacles : List Obst) (p : Pos) : Bool :=
  (enemies.all fun e => !(decide (e.1 ≠ EState.dead) && decide (distSq e.2 p < 9))) &&
  (obstacles.all fun o => o.isGround || !(inExpandedBox o p))

/-- The `while (attempts < 20)` search loop of
`EnemyManager.spawnEnemy`.  `cand i` is the random candidate sampled on
attempt `i`; the third argument is the JS `position` variable, which is
re-assigned to the fresh candidate on every iteration *before* the
validity check, so it is never reset to `null` on failure. -/
def spawnSearchLoop (cand : ℕ → Pos) (valid : Pos → Bool) :
    ℕ → ℕ → Option Pos → Option Pos
  | 0, _, position => position
  | fuel + 1, attempts, _ =>
      let p := cand attempts
      if valid p then some p
      else spawnSearchLoop cand valid fuel (attempts + 1) (some p)

/-- The value of `position` after the spawn-position search of
`EnemyManager.spawnEnemy` (20 attempts, starting from `null`). -/
def spawnSearch (cand : ℕ → Pos) (valid : Pos → Bool) : Option Pos :=
  spawnSearchLoop cand valid 20 0 none

/-- The slice of `EnemyManager` state that `spawnEnemy` touches,
together with the world obstacles consulted by the validator. -/
structure SpawnState where
  enemies : List (EState × Pos)
  waveEnemiesSpawned : ℕ
  obstacles : List Obst
  deriving DecidableEq, Repr

/-- `EnemyManager.spawnEnemy()`: run the position search; then
`if (position)` create the enemy there (a freshly constructed `Enemy`
starts in the `PATROL` state) and increment the spawned counter. -/
def spawnEnemy (cand : ℕ → Pos) (s : SpawnState) : SpawnState :=
  match spawnSearch cand
      (fun p => isValidSpawnPosition s.enemies s.obstacles p) with
  | some p =>
      { s with enemies := s.enemies ++ [(EState.patrol, p)],
               waveEnemiesSpawned := s.waveEnemiesSpawned + 1 }
  | none => s

/-! ## The wave director (src/js/EnemyManager.js)

Wave bookkeeping state of `EnemyManager`.  The `enemies` array is
carried as the list of the enemies' liveness flags (`true` iff
`state !== Enemy.STATE.DEAD`), which is all the wave bookkeeping reads
of it (`checkSpawns` counts the non-Dead ones, and dead enemies are
kept in the array). -/

structure WState where
  currentWave : ℕ
  waveTotalEnemies : ℕ
  waveEnemiesSpawned : ℕ
  waveKilled : ℕ
  waveInProgress : Bool
  killCount : ℕ
  maxSimultaneousEnemies : ℕ
  spawnMultiplier : Option ℚ
  enemies : List Bool
  deriving DecidableEq, Repr

/-- `this.spawnMultiplier || 1.5`: the default 1.5 is used while
`spawnMultiplier` is still undefined (or the falsy 0). -/
def effectiveMultiplier (s : WState) : ℚ :=
  match s.spawnMultiplier with
  | none => 3/2
  | some m => if m = 0 then 3/2 else m

/-- `this.enemies.filter(e => e.state !== Enemy.STATE.DEAD).length`. -/
def activeCount (s : WState) : ℕ := s.enemies.count true

/-- `EnemyManager.startWave()`: mark in progress, reset the per-wave
counters, and set
`waveTotalEnemies = Math.ceil((5 + (wave-1)*3) * multiplier)`.
(The trailing `checkSpawns()` call is one optional spawn step, covered
by the `WStep.spawn` transition.) -/
def startWave (s : WState) : WState :=
  { s with waveInProgress := true, waveEnemiesSpawned := 0, waveKilled := 0,
           waveTotalEnemies :=
             ⌈(5 + 3 * ((s.currentWave : ℚ) - 1)) * effectiveMultiplier s⌉₊ }

/-- The effect of a successful `spawnEnemy()` on the wave bookkeeping:
push one live enemy, increment the spawned counter.  (Per
`spawn_exhaustion_still_spawns` the search never fails to produce a
position, so every `spawnEnemy` call spawns.) -/
def spawnStep (s : WState) : WState :=
  { s with enemies := s.enemies ++ [true],
           waveEnemiesSpawned := s.waveEnemiesSpawned + 1 }

/-- `EnemyManager.onEnemyKilled(enemy)`: increment both kill counters,
then complete the wave (`waveInProgress = false`) when
`waveKilled >= waveTotalEnemies`. -/
def onEnemyKilled (s : WState) : WState :=
  let t := { s with killCount := s.killCount + 1,
                    waveKilled := s.waveKilled + 1 }
  if t.waveTotalEnemies ≤ t.waveKilled then
    { t with waveInProgress := false }
  else t

/-- The delayed `completeWave` continuation (`setTimeout`, 5 s):
advance the wave counter and start the next wave. -/
def advanceWave (s : WState) : WState :=
  startWave { s with currentWave := s.currentWave + 1 }

/-- `caps[level - 1] || 8` with `caps = [5, 6, 8, 10, 12, 15]`. -/
def capsTable (level : ℕ) : ℕ :=
  ([5, 6, 8, 10, 12, 15] : List ℕ).getD (level - 1) 8

/-- `EnemyManager.setDifficulty(level)`: cap from the table, spawn
multiplier `0.5 + level * 0.5` (used by the next `startWave`). -/
def setDifficulty (level : ℕ) (s : WState) : WState :=
  { s with maxSimultaneousEnemies := capsTable level,
           spawnMultiplier := some (1/2 + (level : ℚ) * (1/2)) }

/-- The `EnemyManager` constructor state. -/
def constructorWState : WState :=
  { currentWave := 1, waveTotalEnemies := 5, waveEnemiesSpawned := 0,
    waveKilled := 0, waveInProgress := false, killCount := 0,
    maxSimultaneousEnemies := 8, spawnMultiplier := none, enemies := [] }

/-- One transition of the wave director:
* `spawn`: `checkSpawns` finds the wave in progress, the wave quota not
  yet spawned and the simultaneous cap not reached, and spawns;
* `kill`: some live enemy dies (`Enemy.die` sets its state to Dead and
  calls `onEnemyKilled`);
* `advance`: the delayed next-wave timer of `completeWave` fires;
* `difficulty`: the menu sets a difficulty level (the UI offers
  levels ≥ 1). -/
inductive WStep : WState → WState → Prop where
  | spawn (s : WState) :
      s.waveInProgress = true →
      s.waveEnemiesSpawned < s.waveTotalEnemies →
      activeCount s < s.maxSimultaneousEnemies →
      WStep s (spawnStep s)
  | kill (s : WState) (l1 l2 : List Bool) :
      s.enemies = l1 ++ true :: l2 →
      WStep s (onEnemyKilled { s with enemies := l1 ++ false :: l2 })
  | advance (s : WState) :
      s.waveInProgress = false →
      WStep s (advanceWave s)
  | difficulty (s : WState) (level : ℕ) :
      1 ≤ level →
      WStep s (setDifficulty level s)

/-- Reachable wave states: `init()` (which runs `startWave` on the
constructor state) — possibly after a difficulty selection — followed
by any number of transitions. -/
inductive WReach : WState → Prop where
  | init : WReach (startWave constructorWState)
  | initDiff (level : ℕ) : 1 ≤ level →
      WReach (startWave (setDifficulty level constructorWState))
  | step {s t : WState} : WReach s → WStep s t → WReach t

/-- The wave bookkeeping invariant. -/
def WInv (s : WState) : Prop :=
  s.waveKilled ≤ s.waveEnemiesSpawned ∧
  s.waveEnemiesSpawned ≤ s.waveTotalEnemies ∧
  activeCount s + s.waveKilled = s.waveEnemiesSpawned ∧
  (s.waveInProgress = false → s.waveKilled = s.waveEnemiesSpawned) ∧
  (s.waveInProgress = true → s.waveKilled < s.waveTotalEnemies) ∧
  1 ≤ s.currentWave ∧
  (∀ m : ℚ, s.spawnMultiplier = some m → 1 ≤ m)

end FPS

namespace FPS

/-! ### C1: the loot roll bands -/

/-- C1: one uniform draw decides the drop: `[0, 0.1)` spawns a potion,
`[0.1, 0.8)` a coin, `[0.8, 1)` nothing, and no value of the draw ever
spawns the hat (the documented second `< 0.1` band is unreachable). -/
theorem lootRoll_bands (r : ℚ) :
    (r < 1/10 → lootRoll r = some LootType.potion) ∧
    (1/10 ≤ r → r < 8/10 → lootRoll r = some LootType.coin) ∧
    (8/10 ≤ r → lootRoll r = none) ∧
    lootRoll r ≠ some LootType.cowboyhat := by
  unfold lootRoll
  refine ⟨fun h => by rw [if_pos h], fun h1 h2 => ?_, fun h => ?_, ?_⟩
  · rw [if_neg (by linarith), if_neg (by linarith), if_pos h2]
  · rw [if_neg (by linarith), if_neg (by linarith), if_neg (by linarith)]
  · by_cases h1 : r < 1/10
    · rw [if_pos h1]
      simp
    · rw [if_neg h1, if_neg h1]
      by_cases h2 : r < 8/10 <;> simp [h2]

/-- Concrete instances of `lootRoll_bands`: a draw of 0.05 yields the
potion, 0.5 the coin, 0.9 nothing. -/
theorem lootRoll_bands_witness :
    lootRoll (1/20) = some LootType.potion ∧
    lootRoll (1/2) = some LootType.coin ∧
    lootRoll (9/10) = none :=
  ⟨(lootRoll_bands (1/20)).1 (by norm_num),
   (lootRoll_bands (1/2)).2.1 (by norm_num) (by norm_num),
   (lootRoll_bands (9/10)).2.2.1 (by norm_num)⟩

/-! ### C10: player damage ignores armor -/

/-- C10: for every damage amount `a ≥ 0`, `Player.takeDamage(a)` sets
health to `max 0 (health − a)` and leaves armor, money and ammo
unchanged; in particular the result does not depend on the armor value,
so armor provides no damage reduction. -/
theorem takeDamage_max_and_preserves (s : PState) (a : ℚ) (_ha : 0 ≤ a) :
    (s.takeDamage a).health = max 0 (s.health - a) ∧
    (s.takeDamage a).armor = s.armor ∧
    (s.takeDamage a).money = s.money ∧
    (s.takeDamage a).ammo = s.ammo ∧
    (∀ b : ℚ, (({ s with armor := b } : PState).takeDamage a).health =
        (s.takeDamage a).health) := by
  refine ⟨rfl, rfl, rfl, rfl, fun b => rfl⟩

/-- Concrete instance of `takeDamage_max_and_preserves` at the initial
player state with 30 damage. -/
theorem takeDamage_max_and_preserves_witness :
    (initialPState.takeDamage 30).health = max 0 (initialPState.health - 30) ∧
    (initialPState.takeDamage 30).armor = initialPState.armor ∧
    (initialPState.takeDamage 30).money = initialPState.money ∧
    (initialPState.takeDamage 30).ammo = initialPState.ammo ∧
    (∀ b : ℚ, (({ initialPState with armor := b } : PState).takeDamage 30).health =
        (initialPState.takeDamage 30).health) :=
  takeDamage_max_and_preserves initialPState 30 (by norm_num)

/-! ### C6: enemy health monotone, Dead terminal -/

theorem stateDispatch_fst_health (delta : ℚ) (env : EEnv) (e : Enemy) :
    (e.stateDispatch delta env).1.health = e.health := by
  cases he : e.state <;>
    simp only [Enemy.stateDispatch, he, Enemy.updateIdle, Enemy.updatePatrol,
      Enemy.updateChase, Enemy.updateAttack] <;>
    first
      | rfl
      | (split_ifs <;> rfl)

theorem stateDispatch_fst_not_dead (delta : ℚ) (env : EEnv) (e : Enemy)
    (h : e.state ≠ EState.dead) :
    (e.stateDispatch delta env).1.state ≠ EState.dead := by
  cases he : e.state <;>
    simp only [Enemy.stateDispatch, he, Enemy.updateIdle, Enemy.updatePatrol,
      Enemy.updateChase, Enemy.updateAttack] <;>
    first
      | (split_ifs <;> simp_all)
      | simp_all

theorem perception_health (env : EEnv) (e : Enemy) :
    (e.perception env).health = e.health := by
  unfold Enemy.perception
  split_ifs <;> rfl

theorem perception_not_dead (env : EEnv) (e : Enemy)
    (h : e.state ≠ EState.dead) :
    (e.perception env).state ≠ EState.dead := by
  unfold Enemy.perception
  split_ifs <;> simp_all

/-- C6: (1) with a nonnegative amount, `takeDamage` never increases
health, and (2) `update` never changes health; (3) from a live state,
`takeDamage` puts the enemy in Dead exactly when the new health is
≤ 0; (4) Dead is terminal and absorbing: both `takeDamage` and `update`
are no-ops on a Dead enemy; (5) `update` never moves a live enemy into
Dead (only damage does). -/
theorem enemy_health_monotone_dead_terminal
    (e : Enemy) (a delta : ℚ) (env : EEnv) :
    (0 ≤ a → (e.takeDamage a).health ≤ e.health) ∧
    ((e.update delta env).1.health = e.health) ∧
    (e.state ≠ EState.dead →
        ((e.takeDamage a).state = EState.dead ↔ e.health - a ≤ 0)) ∧
    (e.state = EState.dead →
        (e.takeDamage a = e ∧ (e.update delta env).1 = e)) ∧
    (e.state ≠ EState.dead → (e.update delta env).1.state ≠ EState.dead) := by
  refine ⟨?_, ?_, ?_, ?_, ?_⟩
  · intro ha
    simp only [Enemy.takeDamage]
    split_ifs <;> simp <;> linarith
  · simp only [Enemy.update]
    split_ifs with h1 h2
    · rfl
    · dsimp only
      rw [perception_health, stateDispatch_fst_health]
    · dsimp only
      rw [perception_health, stateDispatch_fst_health]
  · intro h
    simp only [Enemy.takeDamage, if_neg h]
    split_ifs with h2
    · simp [h2]
    · simp [h, h2]
  · intro h
    refine ⟨?_, ?_⟩
    · simp only [Enemy.takeDamage, if_pos h]
    · simp only [Enemy.update, if_pos h]
  · intro h
    simp only [Enemy.update, if_neg h]
    apply perception_not_dead
    apply stateDispatch_fst_not_dead
    split_ifs <;> exact h

/-- Concrete instances of `enemy_health_monotone_dead_terminal` on a
Robot-stats enemy (150 health): a 25-damage hit lowers health, a
150-damage hit kills, and damaging a Dead enemy is a no-op. -/
theorem enemy_health_monotone_dead_terminal_witness :
    ((⟨EState.patrol, 150, 150, 15, 0, 1, 0, 2, 2, 30, true⟩ :
        Enemy).takeDamage 25).health ≤ (150 : ℚ) ∧
    ((⟨EState.patrol, 150, 150, 15, 0, 1, 0, 2, 2, 30, true⟩ :
        Enemy).takeDamage 150).state = EState.dead ∧
    (⟨EState.dead, -10, 150, 15, 0, 1, 0, 2, 2, 30, true⟩ :
        Enemy).takeDamage 25 =
      ⟨EState.dead, -10, 150, 15, 0, 1, 0, 2, 2, 30, true⟩ := by
  refine ⟨?_, ?_, ?_⟩
  · exact (enemy_health_monotone_dead_terminal
      ⟨EState.patrol, 150, 150, 15, 0, 1, 0, 2, 2, 30, true⟩ 25 0
      ⟨false, 10, 10⟩).1 (by norm_num)
  · exact ((enemy_health_monotone_dead_terminal
      ⟨EState.patrol, 150, 150, 15, 0, 1, 0, 2, 2, 30, true⟩ 150 0
      ⟨false, 10, 10⟩).2.2.1 (by simp)).mpr (by norm_num)
  · exact ((enemy_health_monotone_dead_terminal
      ⟨EState.dead, -10, 150, 15, 0, 1, 0, 2, 2, 30, true⟩ 25 0
      ⟨false, 10, 10⟩).2.2.2.1 rfl).1

/-! ### C5: the spawn-position validator -/

/-- C5: the validator returns false for a candidate within distance 3
(`distSq < 9`) of a live enemy, false for a candidate inside a
non-ground obstacle's box expanded by the 1.0 safety margin, and true
on a completely open field (no live enemy, no non-ground obstacle), so
the first sampled position is then accepted. -/
theorem isValidSpawnPosition_spec (enemies : List (EState × Pos))
    (obstacles : List Obst) (p : Pos) :
    (∀ e ∈ enemies, e.1 ≠ EState.dead → distSq e.2 p < 9 →
        isValidSpawnPosition enemies obstacles p = false) ∧
    (∀ o ∈ obstacles, o.isGround = false → inExpandedBox o p = true →
        isValidSpawnPosition enemies obstacles p = false) ∧
    ((∀ e ∈ enemies, e.1 = EState.dead) →
     (∀ o ∈ obstacles, o.isGround = true) →
        isValidSpawnPosition enemies obstacles p = true) := by
  refine ⟨?_, ?_, ?_⟩
  · intro e he hlive hclose
    unfold isValidSpawnPosition
    rw [Bool.and_eq_false_iff]
    left
    rw [List.all_eq_false]
    exact ⟨e, he, by simp [hlive, hclose]⟩
  · intro o ho hng hin
    unfold isValidSpawnPosition
    rw [Bool.and_eq_false_iff]
    right
    rw [List.all_eq_false]
    exact ⟨o, ho, by simp [hng, hin]⟩
  · intro hdead hground
    unfold isValidSpawnPosition
    rw [Bool.and_eq_true]
    constructor
    · rw [List.all_eq_true]
      intro e he
      simp [hdead e he]
    · rw [List.all_eq_true]
      intro o ho
      simp [hground o ho]

/-- Concrete instances of `isValidSpawnPosition_spec`: a live enemy at
distance √2 rejects the candidate; an open field accepts it. -/
theorem isValidSpawnPosition_spec_witness :
    isValidSpawnPosition [(EState.patrol, ⟨0, 0, 0⟩)] []
      (⟨1, 0, 1⟩ : Pos) = false ∧
    isValidSpawnPosition [] [] (⟨1, 0, 1⟩ : Pos) = true :=
  ⟨((isValidSpawnPosition_spec [(EState.patrol, ⟨0, 0, 0⟩)] [] ⟨1, 0, 1⟩).1
      (EState.patrol, ⟨0, 0, 0⟩) (by simp) (by simp) (by norm_num [distSq])),
   ((isValidSpawnPosition_spec [] [] ⟨1, 0, 1⟩).2.2
      (by simp) (by simp))⟩

/-! ### C2: spawn-search exhaustion (code bug)

In `spawnEnemy` the JS variable `position` is assigned the freshly
sampled candidate at the top of every loop iteration and is never reset
to `null` when validation fails, so after 20 failed attempts it still
holds the 20th (invalid) candidate and the `if (position)` guard — the
evident intent of which is to skip spawning on exhaustion, as §7(b) of
the design states — always passes: an enemy is spawned at an invalid
position. -/

/-- C2 (refuting evidence): with a non-ground obstacle covering every
candidate, all 20 attempts fail validation, yet `spawnEnemy` spawns an
enemy at the last invalid candidate and increments the spawned
counter. -/
theorem spawn_exhaustion_still_spawns :
    isValidSpawnPosition [] [⟨false, -100, 100, -100, 100⟩]
      (⟨0, 0, 0⟩ : Pos) = false ∧
    spawnEnemy (fun _ => ⟨0, 0, 0⟩)
        ⟨[], 0, [⟨false, -100, 100, -100, 100⟩]⟩ =
      ⟨[(EState.patrol, ⟨0, 0, 0⟩)], 1, [⟨false, -100, 100, -100, 100⟩]⟩ := by
  constructor
  · norm_num [isValidSpawnPosition, inExpandedBox]
  · norm_num [spawnEnemy, spawnSearch, spawnSearchLoop,
      isValidSpawnPosition, inExpandedBox]

/-! ### C3 and C4: wave bookkeeping -/

theorem effectiveMultiplier_ge_one (s : WState)
    (h : ∀ m : ℚ, s.spawnMultiplier = some m → 1 ≤ m) :
    1 ≤ effectiveMultiplier s := by
  cases hm : s.spawnMultiplier with
  | none => norm_num [effectiveMultiplier, hm]
  | some m =>
      have h1 := h m hm
      simp only [effectiveMultiplier, hm]
      split_ifs with h0
      · norm_num
      · exact h1

theorem startWave_total_pos (s : WState) (hw : 1 ≤ s.currentWave)
    (hm : ∀ m : ℚ, s.spawnMultiplier = some m → 1 ≤ m) :
    1 ≤ (startWave s).waveTotalEnemies := by
  have h1 : (1:ℚ) ≤ effectiveMultiplier s := effectiveMultiplier_ge_one s hm
  have h2 : (1:ℚ) ≤ (s.currentWave : ℚ) := by exact_mod_cast hw
  have h3 : (0:ℚ) <
      (5 + 3 * ((s.currentWave : ℚ) - 1)) * effectiveMultiplier s := by
    nlinarith
  have h4 : (startWave s).waveTotalEnemies =
      ⌈(5 + 3 * ((s.currentWave : ℚ) - 1)) * effectiveMultiplier s⌉₊ := rfl
  rw [h4]
  exact Nat.ceil_pos.mpr h3

theorem winv_startWave (s : WState) (ha : activeCount s = 0)
    (hw : 1 ≤ s.currentWave)
    (hm : ∀ m : ℚ, s.spawnMultiplier = some m → 1 ≤ m) :
    WInv (startWave s) := by
  have htot := startWave_total_pos s hw hm
  refine ⟨Nat.le_refl 0, Nat.zero_le _, ?_, fun _ => rfl, fun _ => htot,
    hw, hm⟩
  show activeCount s + 0 = 0
  omega

/-- Field-wise description of `onEnemyKilled`. -/
theorem onEnemyKilled_fields (s : WState) :
    (onEnemyKilled s).waveKilled = s.waveKilled + 1 ∧
    (onEnemyKilled s).waveEnemiesSpawned = s.waveEnemiesSpawned ∧
    (onEnemyKilled s).waveTotalEnemies = s.waveTotalEnemies ∧
    (onEnemyKilled s).enemies = s.enemies ∧
    (onEnemyKilled s).currentWave = s.currentWave ∧
    (onEnemyKilled s).spawnMultiplier = s.spawnMultiplier ∧
    ((onEnemyKilled s).waveInProgress = false ↔
      (s.waveTotalEnemies ≤ s.waveKilled + 1 ∨ s.waveInProgress = false)) := by
  unfold onEnemyKilled
  dsimp only
  split_ifs with hc <;> simp [hc]

theorem winv_step {s t : WState} (h : WInv s) (hst : WStep s t) : WInv t := by
  obtain ⟨h1, h2, h3, h4, h5, h6, h7⟩ := h
  cases hst with
  | spawn hp hq hr =>
      have hact : activeCount (spawnStep s) = activeCount s + 1 := by
        simp [activeCount, spawnStep]
      refine ⟨?_, ?_, ?_, ?_, ?_, h6, h7⟩
      · show s.waveKilled ≤ s.waveEnemiesSpawned + 1
        omega
      · show s.waveEnemiesSpawned + 1 ≤ s.waveTotalEnemies
        omega
      · show activeCount (spawnStep s) + s.waveKilled =
          s.waveEnemiesSpawned + 1
        omega
      · intro hf
        rw [show (spawnStep s).waveInProgress = s.waveInProgress from rfl,
          hp] at hf
        cases hf
      · intro _
        exact h5 hp
  | kill l1 l2 he =>
      have hc1 : activeCount s = l1.count true + (l2.count true + 1) := by
        simp [activeCount, he, List.count_append, List.count_cons]
      have hprog : s.waveInProgress = true := by
        cases hb : s.waveInProgress with
        | false =>
            have := h4 hb
            omega
        | true => rfl
      have hkt : s.waveKilled < s.waveTotalEnemies := h5 hprog
      have hc2 : activeCount ({ s with enemies := l1 ++ false :: l2 }) =
          l1.count true + l2.count true := by
        simp [activeCount, List.count_append, List.count_cons]
      obtain ⟨f1, f2, f3, f4, f5, f6, f7⟩ :=
        onEnemyKilled_fields ({ s with enemies := l1 ++ false :: l2 })
      have k1 : (onEnemyKilled { s with enemies := l1 ++ false :: l2 }
          ).waveKilled = s.waveKilled + 1 := f1
      have k2 : (onEnemyKilled { s with enemies := l1 ++ false :: l2 }
          ).waveEnemiesSpawned = s.waveEnemiesSpawned := f2
      have k3 : (onEnemyKilled { s with enemies := l1 ++ false :: l2 }
          ).waveTotalEnemies = s.waveTotalEnemies := f3
      have k7 : ((onEnemyKilled { s with enemies := l1 ++ false :: l2 }
          ).waveInProgress = false) ↔
          (s.waveTotalEnemies ≤ s.waveKilled + 1 ∨
            s.waveInProgress = false) := f7
      have g4 : (onEnemyKilled { s with enemies := l1 ++ false :: l2 }).enemies
          = l1 ++ false :: l2 := f4
      have gact : activeCount
          (onEnemyKilled { s with enemies := l1 ++ false :: l2 }) =
          l1.count true + l2.count true := by
        rw [activeCount, g4]
        rw [activeCount] at hc2
        exact hc2
      refine ⟨?_, ?_, ?_, ?_, ?_, ?_, ?_⟩
      · rw [k1, k2]
        omega
      · rw [k2, k3]
        exact h2
      · rw [k1, k2, gact]
        omega
      · intro hf
        rw [k1, k2]
        rcases k7.mp hf with hcase | hcase
        · omega
        · rw [hprog] at hcase
          cases hcase
      · intro ht
        rw [k1, k3]
        by_cases hcase : s.waveTotalEnemies ≤ s.waveKilled + 1
        · exfalso
          have h9 := k7.mpr (Or.inl hcase)
          rw [ht] at h9
          cases h9
        · omega
      · rw [f5]
        exact h6
      · intro m hm
        rw [f6] at hm
        exact h7 m hm
  | advance hp =>
      have hks := h4 hp
      apply winv_startWave
      · show activeCount s = 0
        omega
      · show 1 ≤ s.currentWave + 1
        omega
      · intro m hm
        exact h7 m hm
  | difficulty level hl =>
      refine ⟨h1, h2, h3, h4, h5, h6, ?_⟩
      intro m hm
      rw [show (setDifficulty level s).spawnMultiplier =
        some (1/2 + (level : ℚ) * (1/2)) from rfl] at hm
      injection hm with hm2
      rw [← hm2]
      have : (1:ℚ) ≤ (level : ℚ) := by exact_mod_cast hl
      linarith

theorem winv_reach (s : WState) (h : WReach s) : WInv s := by
  induction h with
  | init =>
      apply winv_startWave
      · rfl
      · norm_num [constructorWState]
      · intro m hm
        simp [constructorWState] at hm
  | initDiff level hl =>
      apply winv_startWave
      · rfl
      · norm_num [constructorWState, setDifficulty]
      · intro m hm
        rw [show (setDifficulty level constructorWState).spawnMultiplier =
          some (1/2 + (level : ℚ) * (1/2)) from rfl] at hm
        injection hm with hm2
        rw [← hm2]
        have : (1:ℚ) ≤ (level : ℚ) := by exact_mod_cast hl
        linarith
  | step _ hst ih => exact winv_step ih hst

/-- C3: in every reachable wave state `waveKilled ≤ waveTotalEnemies`;
a kill notification is possible only while the wave is in progress (so
the completion transition cannot fire twice in a wave), increments
`waveKilled` by exactly one, and completes the wave
(`waveInProgress := false`) exactly when the new count reaches
`waveTotalEnemies`; once complete, the (delayed) advance starts the
next wave. -/
theorem wave_invariant_kill_complete (s : WState) (h : WReach s) :
    s.waveKilled ≤ s.waveTotalEnemies ∧
    (∀ l1 l2 : List Bool, s.enemies = l1 ++ true :: l2 →
      s.waveInProgress = true ∧
      (onEnemyKilled { s with enemies := l1 ++ false :: l2 }).waveKilled =
        s.waveKilled + 1 ∧
      ((onEnemyKilled { s with enemies := l1 ++ false :: l2 }
          ).waveInProgress = false ↔
        s.waveKilled + 1 = s.waveTotalEnemies)) ∧
    (s.waveInProgress = false →
      (advanceWave s).currentWave = s.currentWave + 1 ∧
      (advanceWave s).waveInProgress = true) := by
  obtain ⟨h1, h2, h3, h4, h5, h6, h7⟩ := winv_reach s h
  refine ⟨Nat.le_trans h1 h2, ?_, ?_⟩
  · intro l1 l2 he
    have hc1 : activeCount s = l1.count true + (l2.count true + 1) := by
      simp [activeCount, he, List.count_append, List.count_cons]
    have hprog : s.waveInProgress = true := by
      cases hb : s.waveInProgress with
      | false =>
          have := h4 hb
          omega
      | true => rfl
    have hkt : s.waveKilled < s.waveTotalEnemies := h5 hprog
    obtain ⟨f1, _, _, _, _, _, f7⟩ :=
      onEnemyKilled_fields ({ s with enemies := l1 ++ false :: l2 })
    have k1 : (onEnemyKilled { s with enemies := l1 ++ false :: l2 }
        ).waveKilled = s.waveKilled + 1 := f1
    have k7 : ((onEnemyKilled { s with enemies := l1 ++ false :: l2 }
        ).waveInProgress = false) ↔
        (s.waveTotalEnemies ≤ s.waveKilled + 1 ∨
          s.waveInProgress = false) := f7
    refine ⟨hprog, k1, ?_⟩
    constructor
    · intro hf
      rcases k7.mp hf with hcase | hcase
      · omega
      · rw [hprog] at hcase
        cases hcase
    · intro heq
      exact k7.mpr (Or.inl (by omega))
  · intro _
    exact ⟨rfl, rfl⟩

/-- Concrete instance of `wave_invariant_kill_complete`: in the state
right after `init()` the invariant holds, and after one spawn, killing
that enemy increments `waveKilled` to 1. -/
theorem wave_invariant_kill_complete_witness :
    (startWave constructorWState).waveKilled ≤
      (startWave constructorWState).waveTotalEnemies ∧
    (onEnemyKilled { spawnStep (startWave constructorWState) with
        enemies := [false] }).waveKilled =
      (spawnStep (startWave constructorWState)).waveKilled + 1 := by
  have h0 : WReach (startWave constructorWState) := WReach.init
  have hq : (startWave constructorWState).waveEnemiesSpawned <
      (startWave constructorWState).waveTotalEnemies := by
    have := startWave_total_pos constructorWState (by norm_num [constructorWState])
      (by intro m hm; simp [constructorWState] at hm)
    exact this
  have hs : WStep (startWave constructorWState)
      (spawnStep (startWave constructorWState)) :=
    WStep.spawn _ rfl hq (by show (0:ℕ) < 8; norm_num)
  have h1 : WReach (spawnStep (startWave constructorWState)) :=
    WReach.step h0 hs
  refine ⟨(wave_invariant_kill_complete _ h0).1, ?_⟩
  have h2 := ((wave_invariant_kill_complete _ h1).2.1 [] [] rfl).2.1
  exact h2

/-- C4: starting a wave `N` with a stored spawn multiplier `m ≠ 0`
gives `waveTotalEnemies = ⌈(5 + 3(N−1))·m⌉`; `setDifficulty(L)` for
`L ∈ 1..6` stores multiplier `0.5 + L·0.5` (so the next wave uses it)
and sets the simultaneous cap to the table entry of
`[5, 6, 8, 10, 12, 15]`. -/
theorem waveTotal_formula_difficulty (s : WState) (N level : ℕ)
    (hw : s.currentWave = N) (h1 : 1 ≤ level) (h6 : level ≤ 6) :
    (∀ m : ℚ, s.spawnMultiplier = some m → m ≠ 0 →
      (startWave s).waveTotalEnemies =
        ⌈(5 + 3 * ((N : ℚ) - 1)) * m⌉₊) ∧
    (setDifficulty level s).spawnMultiplier =
      some (1/2 + (level : ℚ) * (1/2)) ∧
    (startWave (setDifficulty level s)).waveTotalEnemies =
      ⌈(5 + 3 * ((N : ℚ) - 1)) * (1/2 + (level : ℚ) * (1/2))⌉₊ ∧
    (setDifficulty level s).maxSimultaneousEnemies =
      ([5, 6, 8, 10, 12, 15] : List ℕ).get ⟨level - 1, by simp; omega⟩ := by
  have hmul0 : (1:ℚ)/2 + (level : ℚ) * (1/2) ≠ 0 := by
    have : (1:ℚ) ≤ (level : ℚ) := by exact_mod_cast h1
    intro hcontra
    nlinarith
  refine ⟨?_, rfl, ?_, ?_⟩
  · intro m hm hm0
    have heff : effectiveMultiplier s = m := by
      simp [effectiveMultiplier, hm, hm0]
    have : (startWave s).waveTotalEnemies =
        ⌈(5 + 3 * ((s.currentWave : ℚ) - 1)) * effectiveMultiplier s⌉₊ := rfl
    rw [this, heff, hw]
  · have heff : effectiveMultiplier (setDifficulty level s) =
        1/2 + (level : ℚ) * (1/2) := by
      simp only [effectiveMultiplier, setDifficulty]
      rw [if_neg hmul0]
    have hcw : (setDifficulty level s).currentWave = N := hw
    have : (startWave (setDifficulty level s)).waveTotalEnemies =
        ⌈(5 + 3 * (((setDifficulty level s).currentWave : ℚ) - 1)) *
          effectiveMultiplier (setDifficulty level s)⌉₊ := rfl
    rw [this, heff, hcw]
  · show capsTable level = _
    interval_cases level <;> rfl

/-- Concrete instance of `waveTotal_formula_difficulty`: difficulty 3
gives multiplier 2 and cap 8; wave 1 then totals `⌈5·2⌉ = 10`. -/
theorem waveTotal_formula_difficulty_witness :
    (startWave (setDifficulty 3 constructorWState)).waveTotalEnemies =
      ⌈(5 + 3 * ((1 : ℚ) - 1)) * (1/2 + (3 : ℚ) * (1/2))⌉₊ ∧
    (setDifficulty 3 constructorWState).maxSimultaneousEnemies = 8 := by
  have h := waveTotal_formula_difficulty constructorWState 1 3 rfl
    (by norm_num) (by norm_num)
  refine ⟨h.2.2.1, ?_⟩
  rw [h.2.2.2]
  rfl

/-! ### C8: diminishing-return armor stacking -/

/-- Unfolding of the hat-pickup recurrence. -/
theorem armorAfter_succ (n : ℕ) :
    armorAfter (n + 1) = armorAfter n + 100 / (100 + armorAfter n) := by
  unfold armorAfter hatIter
  rw [Function.iterate_succ_apply']
  rfl

theorem armorAfter_nonneg (n : ℕ) : 0 ≤ armorAfter n := by
  induction n with
  | zero => norm_num [armorAfter, hatIter, initialPState]
  | succ n ih =>
      rw [armorAfter_succ]
      have hpos : (0:ℚ) < 100 + armorAfter n := by linarith
      have : 0 < (100:ℚ) / (100 + armorAfter n) := by positivity
      linarith

theorem armorGain_eq (n : ℕ) : armorGain n = 100 / (100 + armorAfter n) := by
  rw [armorGain, armorAfter_succ]
  ring

theorem armorAfter_strict_mono (n : ℕ) : armorAfter n < armorAfter (n + 1) := by
  rw [armorAfter_succ]
  have h := armorAfter_nonneg n
  have hpos : (0:ℚ) < 100 + armorAfter n := by linarith
  have : 0 < (100:ℚ) / (100 + armorAfter n) := by positivity
  linarith

/-- C8: hat pickups stack with strictly diminishing returns: the
increment of each pickup equals `100 / (100 + currentArmor)`, and over
consecutive pickups from `armor = 0` the increments strictly decrease. -/
theorem armorGain_strict_anti (n : ℕ) :
    armorGain n = 100 / (100 + armorAfter n) ∧
    armorGain (n + 1) < armorGain n := by
  refine ⟨armorGain_eq n, ?_⟩
  rw [armorGain_eq, armorGain_eq]
  have h0 := armorAfter_nonneg n
  have hlt := armorAfter_strict_mono n
  have hpos : (0:ℚ) < 100 + armorAfter n := by linarith
  exact div_lt_div_of_pos_left (by norm_num) hpos (by linarith)

/-! ### C7: jump count resets only on ground contact -/

/-- Every jump-related operation keeps `jumpCount ≤ 2`. -/
theorem jumpCount_le_two_apply (op : JOp) (s : JState)
    (h : s.jumpCount ≤ 2) : (op.apply s).jumpCount ≤ 2 := by
  cases op with
  | space =>
      unfold JOp.apply JState.pressSpace
      by_cases hlt : s.jumpCount < 2
      · simp only [if_pos hlt]
        omega
      · simp only [if_neg hlt]
        exact h
  | update delta ground =>
      unfold JOp.apply JState.updateStep
      by_cases hc : s.groundContact delta ground
      · simp [hc]
      · simp [hc, h]

theorem jumpCount_le_two_run (l : List JOp) (s : JState)
    (h : s.jumpCount ≤ 2) : (JOp.run l s).jumpCount ≤ 2 := by
  induction l generalizing s with
  | nil => exact h
  | cons op l ih => exact ih (op.apply s) (jumpCount_le_two_apply op s h)

/-- Along a run without ground contact, the jump count grows by exactly
the number of accepted jump inputs. -/
theorem noContact_run_count (l : List JOp) (s : JState)
    (h : JOp.NoContactRun l s) :
    (JOp.run l s).jumpCount = s.jumpCount + JOp.acceptedJumps l s := by
  induction l generalizing s with
  | nil => simp [JOp.run, JOp.acceptedJumps]
  | cons op l ih =>
      obtain ⟨hop, hrest⟩ := h
      rw [JOp.run, JOp.acceptedJumps, ih (op.apply s) hrest]
      cases op with
      | space =>
          unfold JOp.apply JState.pressSpace
          by_cases hlt : s.jumpCount < 2
          · simp only [if_pos hlt]
            simp [hlt]
            omega
          · simp only [if_neg hlt]
            simp [hlt]
      | update delta ground =>
          have hc : s.groundContact delta ground = false :=
            hop delta ground rfl
          unfold JOp.apply JState.updateStep
          simp [hc]

/-- C7: (1) a locomotion update that detects ground contact resets the
jump count to 0; (2) no other operation ever sets a nonzero jump count
to 0; (3) a Space press is accepted exactly while `jumpCount < 2`, then
increments it and sets the impulse, scaled by 0.8 for the second jump;
(4) along any run with no ground contact starting at a fresh ground
state, at most 2 jump inputs are accepted. -/
theorem jump_reset_iff_ground_contact :
    (∀ (delta ground : ℚ) (s : JState), s.groundContact delta ground = true →
        (s.updateStep delta ground).jumpCount = 0) ∧
    (∀ (op : JOp) (s : JState), s.jumpCount ≠ 0 → (op.apply s).jumpCount = 0 →
        ∃ delta ground, op = JOp.update delta ground ∧
          s.groundContact delta ground = true) ∧
    (∀ s : JState,
        (s.jumpCount < 2 →
          (s.pressSpace.jumpCount = s.jumpCount + 1 ∧
           s.pressSpace.velY = 8 * (if s.jumpCount = 0 then 1 else 8/10))) ∧
        (2 ≤ s.jumpCount → s.pressSpace = s)) ∧
    (∀ (l : List JOp) (s : JState), s.jumpCount = 0 → JOp.NoContactRun l s →
        JOp.acceptedJumps l s ≤ 2) := by
  refine ⟨?_, ?_, ?_, ?_⟩
  · intro delta ground s h
    unfold JState.updateStep
    simp [h]
  · intro op s hne h0
    cases op with
    | space =>
        exfalso
        revert h0
        unfold JOp.apply JState.pressSpace
        by_cases hlt : s.jumpCount < 2
        · simp only [if_pos hlt]
          omega
        · simp only [if_neg hlt]
          exact hne
    | update delta ground =>
        refine ⟨delta, ground, rfl, ?_⟩
        by_cases hc : s.groundContact delta ground
        · exact hc
        · exfalso
          revert h0
          unfold JOp.apply JState.updateStep
          simp [hc]
          omega
  · intro s
    constructor
    · intro hlt
      unfold JState.pressSpace
      simp [hlt]
    · intro hge
      unfold JState.pressSpace
      simp [Nat.not_lt.mpr hge]
  · intro l s h0 hnc
    have hcount := noContact_run_count l s hnc
    have hle := jumpCount_le_two_run l s (by omega)
    omega

/-- Concrete instance of `jump_reset_iff_ground_contact`: pressing
Space three times while airborne (no ground contact occurs) accepts at
most 2 of the jumps. -/
theorem jump_reset_iff_ground_contact_witness :
    JOp.acceptedJumps [JOp.space, JOp.space, JOp.space]
      ⟨0, 0, 17/10⟩ ≤ 2 :=
  jump_reset_iff_ground_contact.2.2.2 _ ⟨0, 0, 17/10⟩ rfl
    (by simp [JOp.NoContactRun, JOp.apply])

/-! ### C9: firing with an empty magazine -/

/-- C9: when the cooldown has elapsed, no reload is running and the
magazine is empty, `Player.shoot` leaves the player state unchanged
(ammo in particular) and its only observable effect is the empty-gun
cue: no ray is cast and no damage is dealt, whatever the would-be ray
result. -/
theorem shoot_empty_noop (s : PState) (hit : Option Bool)
    (hcool : s.shootCooldown ≤ 0) (hammo : s.ammo = 0)
    (hrel : s.isReloading = false) :
    s.shoot hit = (s, [ShootEv.emptyGunCue]) := by
  unfold PState.shoot
  rw [if_neg (by exact not_lt.mpr hcool), hrel, hammo]
  simp

/-- Concrete instance of `shoot_empty_noop`: the 13th trigger pull on
the 12-round pistol after 12 shots (ammo has reached 0, cooldown
elapsed, no reload running). -/
theorem shoot_empty_noop_witness :
    ({ initialPState with ammo := 0, maxAmmo := 12 } : PState).shoot (some true) =
      ({ initialPState with ammo := 0, maxAmmo := 12 }, [ShootEv.emptyGunCue]) :=
  shoot_empty_noop { initialPState with ammo := 0, maxAmmo := 12 } (some true)
    (by norm_num [initialPState]) rfl rfl

end FPS
